import Mathlib

/-!
Verification of the CBC solver adapter (`src/solvers/cbc.rs`) of the
`lp-solvers` repository against its specification.

The Rust code is shallowly embedded:
* a solution file is a list of its lines (strings, newline stripped);
* Rust's `HashMap<String, f32>` is modelled as an association list whose
  `insert` replaces the binding of an existing key and appends a new one
  otherwise — the observable behaviour of `HashMap::insert`/lookup
  (iteration order of the Rust map is unspecified anyway);
* `f32` values are modelled by `Float`; the primitive `str::parse::<f32>`
  is abstracted as a parameter `pf : String → Except String Float`
  (`Except.error` carries the message of `e.to_string()`);
* `u32` is modelled by `Nat` (the adapter never does arithmetic on it);
* fallible paths return an explicit `Outcome`; the places where the Rust
  code can panic (`result_line[0]` on an empty token vector,
  `line.unwrap()`) are modelled by the dedicated `Outcome.panicked`
  constructor, distinct from a returned `Err`.
-/

namespace LpSolvers

/-- Solve status taxonomy (`solvers::Status`, the closed enumeration used by
`read_specific_solution`). -/
inductive Status where
  | Optimal
  | SubOptimal
  | Infeasible
  | Unbounded
  | NotSolved
deriving DecidableEq

/-- `solvers::Solution`: a solve status plus the variable-name → value map. -/
structure Solution where
  status : Status
  values : List (String × Float)

/-- Result of running a fallible piece of the Rust adapter: `Ok`, `Err`, or a
panic (which in Rust aborts instead of returning a value). -/
inductive Outcome where
  | ok (sol : Solution)
  | err (msg : String)
  | panicked (msg : String)

/-- Model of Rust `str::split_whitespace`: maximal runs of non-whitespace
characters, empty tokens dropped. Tail-recursive scanner over the characters,
`cur` holds the current token reversed. -/
def splitWSAux : List Char → List Char → List String
  | [], cur => if cur.isEmpty then [] else [⟨cur.reverse⟩]
  | c :: cs, cur =>
    if c.isWhitespace then
      (if cur.isEmpty then splitWSAux cs [] else ⟨cur.reverse⟩ :: splitWSAux cs [])
    else splitWSAux cs (c :: cur)

/-- `s.split_whitespace().collect::<Vec<_>>()` on one line. -/
def splitWhitespace (s : String) : List String := splitWSAux s.data []

/-- `HashMap::insert` on the association-list model: replace the binding of an
existing key, append a fresh binding otherwise. -/
def insertVal : List (String × Float) → String → Float → List (String × Float)
  | [], k, v => [(k, v)]
  | p :: t, k, v => if p.1 = k then (k, v) :: t else p :: insertVal t k v

/-- `HashMap` lookup on the association-list model: value of the (unique)
binding of the key, if any. -/
def lookupVal : List (String × Float) → String → Option Float
  | [], _ => none
  | p :: t, k => if p.1 = k then some p.2 else lookupVal t k

/-- The seeding loop of `read_specific_solution`: every variable name of the
problem is inserted with value `0.0` (lines 64–68 of `cbc.rs`). -/
def seedVars (vars : List String) : List (String × Float) :=
  vars.foldl (fun m v => insertVal m v 0.0) []

/-- The status-word table of `read_specific_solution` (lines 74–86):
first token of the first line → `Status`. -/
def statusOfToken (tok : String) : Status :=
  if tok = "Optimal" then .Optimal
  else if tok = "Infeasible" ∨ tok = "Integer" then .Infeasible
  else if tok = "Unbounded" then .Unbounded
  else if tok = "Stopped" then .SubOptimal
  else .NotSolved

/-- The `result_line[0] == "**"` marker removal (lines 90–92): drop a leading
`"**"` token, keep everything else. (On `[]` the Rust code never reaches this
check — it panics on the indexing first; the `[]` case here is only used to
state theorems about the token list after removal.) -/
def stripMarker : List String → List String
  | [] => []
  | t0 :: ts => if t0 = "**" then ts else t0 :: ts

/-- The data-line loop of `read_specific_solution` (lines 87–103), carrying the
already-fixed status `st` and the accumulated value map `m`:
* an empty token vector makes `result_line[0]` panic (index out of bounds);
* after marker removal the token count must be exactly 4, else
  `Err("Incorrect solution format")`;
* token 2 is parsed as a float (`pf`); on success the variable name (token 1)
  is inserted, on failure the parse error message is returned. -/
def parseLines (pf : String → Except String Float) (st : Status) :
    List (String × Float) → List String → Outcome
  | m, [] => .ok { status := st, values := m }
  | m, l :: rest =>
    match splitWhitespace l with
    | [] => .panicked "index out of bounds"
    | t0 :: ts =>
      match stripMarker (t0 :: ts) with
      | [_, name, value, _] =>
        match pf value with
        | .ok n => parseLines pf st (insertVal m name n) rest
        | .error e => .err e
      | _ => .err "Incorrect solution format"

/-- `CbcSolver::read_specific_solution` (lines 59–105). The file is given as
its list of lines; `problem` is the optional list of the problem's variable
names (`p.variables()` / `var.name()`). An empty file or a first line without
any token yields `Err("Incorrect solution format")`; otherwise the status is
taken from the first token and the remaining lines are folded over the seeded
map. -/
def readSpecificSolution (pf : String → Except String Float)
    (problem : Option (List String)) (fileLines : List String) : Outcome :=
  let seeded := match problem with
    | some vars => seedVars vars
    | none => []
  match fileLines with
  | [] => .err "Incorrect solution format"
  | l0 :: rest =>
    match splitWhitespace l0 with
    | [] => .err "Incorrect solution format"
    | tok :: _ => parseLines pf (statusOfToken tok) seeded rest

/-- The `CbcSolver` configuration record (lines 13–20); `u32` as `Nat`. -/
structure CbcSolver where
  name : String
  command_name : String
  temp_solution_file : String
  threads : Option Nat
  seconds : Option Nat
deriving DecidableEq

/-- `CbcSolver::new` (lines 27–35). The freshly drawn UUID string is external
randomness and is taken as the argument `uuid`. -/
def CbcSolver.new (uuid : String) : CbcSolver :=
  { name := "Cbc"
    command_name := "cbc"
    temp_solution_file := uuid ++ ".sol"
    threads := none
    seconds := none }

/-- `CbcSolver::command_name` (lines 37–45), the method that replaces the
command name (renamed here because in Lean the field projection takes the
plain name). Note the source sets `threads: None, seconds: None` here. -/
def CbcSolver.set_command_name (self : CbcSolver) (command_name : String) :
    CbcSolver :=
  { name := self.name
    command_name := command_name
    temp_solution_file := self.temp_solution_file
    threads := none
    seconds := none }

/-- `CbcSolver::with_temp_solution_file` (lines 47–55). Note the source sets
`threads: None, seconds: None` here. -/
def CbcSolver.with_temp_solution_file (self : CbcSolver)
    (temp_solution_file : String) : CbcSolver :=
  { name := self.name
    command_name := self.command_name
    temp_solution_file := temp_solution_file
    threads := none
    seconds := none }

/-- `WithMaxSeconds::max_seconds` for `CbcSolver` (lines 109–111). -/
def CbcSolver.max_seconds (self : CbcSolver) : Option Nat := self.seconds

/-- `WithMaxSeconds::with_max_seconds` for `CbcSolver` (lines 112–117):
functional record update of `seconds` only. -/
def CbcSolver.with_max_seconds (self : CbcSolver) (seconds : Nat) : CbcSolver :=
  { self with seconds := some seconds }

/-- `WithNbThreads::nb_threads` for `CbcSolver` (lines 120–122). -/
def CbcSolver.nb_threads (self : CbcSolver) : Option Nat := self.threads

/-- `WithNbThreads::with_nb_threads` for `CbcSolver` (lines 123–128):
functional record update of `threads` only. -/
def CbcSolver.with_nb_threads (self : CbcSolver) (threads : Nat) : CbcSolver :=
  { self with threads := some threads }

/-- `HashMap::insert` for the `params` map of `run` (string values). -/
def insertParam : List (String × String) → String → String → List (String × String)
  | [], k, v => [(k, v)]
  | p :: t, k, v => if p.1 = k then (k, v) :: t else p :: insertParam t k v

/-- The argument list assembled by `SolverTrait::run` (lines 136–150):
`Command::new(&self.command_name).arg(path).args(params …).arg("solve")
.arg("solution").arg(&self.temp_solution_file)`. The `optional_params`
vector is flattened into the `params` map; the map's (unspecified) iteration
order is modelled by insertion order. -/
def buildArgs (solver : CbcSolver) (problemFilePath : String) : List String :=
  let optionalParams : List (Option (String × Nat)) :=
    [solver.max_seconds.map (fun s => ("seconds", s)),
     solver.nb_threads.map (fun t => ("threads", t))]
  let params := (optionalParams.filterMap id).foldl
    (fun m kv => insertParam m kv.1 (toString kv.2)) []
  solver.command_name :: problemFilePath ::
    (params.foldr (fun kv acc => kv.1 :: kv.2 :: acc)
      ["solve", "solution", solver.temp_solution_file])

/-- Result of the `Command::…​.output()` call, as observed by `run`: either the
process could not be started, or it exited with a success flag
(`r.status.success()`) and a status description (`r.status.to_string()`). -/
inductive ProcessOutcome where
  | launchFailed
  | exited (success : Bool) (statusDescr : String)

/-- Modelled from the spec: the `read_solution` default method of the
`SolverWithSolutionParsing` trait lives in `solvers/mod.rs`, which is not part
of the sources; per the spec the builder is to "delegate to Solution Parser on
the configured output path; propagate any parse error unchanged", so it opens
the solution file at the given path and hands it to `read_specific_solution`.
The contents found at the path are the parameter `fileLines`. -/
def readSolution (pf : String → Except String Float) (_path : String)
    (problem : Option (List String)) (fileLines : List String) : Outcome :=
  readSpecificSolution pf problem fileLines

/-- `SolverTrait::run` for `CbcSolver` (lines 132–161). External effects enter
as parameters: `fileModel` is the result of `problem.to_tmp_file()`, `proc`
the result of the `output()` call, `solFileLines` the contents of the solution
file, `problemVars` the problem's variable names. The error strings are the
source's `format!` strings. -/
def run (solver : CbcSolver) (pf : String → Except String Float)
    (problemVars : List String) (fileModel : Except String String)
    (proc : ProcessOutcome) (solFileLines : List String) : Outcome :=
  match fileModel with
  | .error e => .err ("Unable to create cbc problem file: " ++ e)
  | .ok _path =>
    match proc with
    | .launchFailed => .err ("Error running the " ++ solver.name ++ " solver")
    | .exited success statusDescr =>
      if success then
        readSolution pf solver.temp_solution_file (some problemVars) solFileLines
      else .err statusDescr

/-- A data line the loop steps over without aborting: after marker removal it
has exactly 4 tokens and its value token parses. -/
def goodLine (pf : String → Except String Float) (l : String) : Bool :=
  match stripMarker (splitWhitespace l) with
  | [_, _, value, _] => (pf value).isOk
  | _ => false


/-! ### Helper lemmas about the value map -/

theorem lookupVal_insertVal (m : List (String × Float)) (k k' : String)
    (v : Float) :
    lookupVal (insertVal m k v) k' = if k = k' then some v else lookupVal m k' := by
  induction m with
  | nil =>
    by_cases h : k = k' <;> simp [insertVal, lookupVal, h]
  | cons p t ih =>
    simp only [insertVal]
    by_cases hp : p.1 = k
    · rw [if_pos hp]
      by_cases h : k = k'
      · simp [lookupVal, h]
      · have hp' : p.1 ≠ k' := fun hcon => h (hp ▸ hcon)
        simp [lookupVal, h, hp']
    · rw [if_neg hp]
      by_cases h : k = k'
      · have hp' : p.1 ≠ k' := h ▸ hp
        subst h
        simp [lookupVal, hp', ih]
      · by_cases hp' : p.1 = k'
        · simp [lookupVal, hp', ih, h]
        · simp [lookupVal, hp', ih, h]

theorem lookupVal_seedVars (vars : List String) (v : String) (hv : v ∈ vars) :
    lookupVal (seedVars vars) v = some 0.0 := by
  have general : ∀ (vs : List String) (m : List (String × Float)),
      (lookupVal m v = some 0.0 ∨ v ∈ vs) →
      lookupVal (vs.foldl (fun m v => insertVal m v 0.0) m) v = some 0.0 := by
    intro vs
    induction vs with
    | nil =>
      intro m h
      rcases h with h | h
      · simpa using h
      · simp at h
    | cons w ws ih =>
      intro m h
      simp only [List.foldl_cons]
      apply ih
      by_cases hw : w = v
      · left; simp [lookupVal_insertVal, hw]
      · rcases h with h | h
        · left; simp [lookupVal_insertVal, hw, h]
        · rcases List.mem_cons.mp h with h | h
          · exact absurd h.symm hw
          · right; exact h
  exact general vars [] (Or.inr hv)

theorem mem_of_mem_stripMarker {x : String} {ts : List String}
    (h : x ∈ stripMarker ts) : x ∈ ts := by
  cases ts with
  | nil => simp [stripMarker] at h
  | cons t0 ts' =>
    by_cases ht : t0 = "**"
    · simp only [stripMarker, ht, if_pos rfl] at h
      exact List.mem_cons_of_mem _ h
    · simp only [stripMarker, if_neg ht] at h
      exact h

/-! ### Helper lemmas about the data-line loop -/

theorem parseLines_ok_status (pf : String → Except String Float) (st : Status)
    (ls : List String) :
    ∀ (m : List (String × Float)) (sol : Solution),
      parseLines pf st m ls = .ok sol → sol.status = st := by
  induction ls with
  | nil =>
    intro m sol h
    simp only [parseLines] at h
    cases h
    rfl
  | cons l rest ih =>
    intro m sol h
    simp only [parseLines] at h
    split at h
    · exact absurd h (by simp)
    · split at h
      · split at h
        · exact ih _ _ h
        · exact absurd h (by simp)
      · exact absurd h (by simp)

theorem parseLines_lookup (pf : String → Except String Float) (st : Status)
    (ls : List String) :
    ∀ (m : List (String × Float)) (sol : Solution),
      parseLines pf st m ls = .ok sol → ∀ k,
      lookupVal sol.values k = lookupVal m k ∨ ∃ l ∈ ls, k ∈ splitWhitespace l := by
  induction ls with
  | nil =>
    intro m sol h k
    left
    simp only [parseLines] at h
    cases h
    rfl
  | cons l rest ih =>
    intro m sol h k
    simp only [parseLines] at h
    split at h
    · exact absurd h (by simp)
    · rename_i t0 ts hs
      split at h
      · rename_i a name value b hm
        split at h
        · rename_i n hpf
          rcases ih _ _ h k with heq | ⟨l', hl', hk⟩
          · by_cases hname : name = k
            · right
              refine ⟨l, List.mem_cons_self l rest, ?_⟩
              rw [hs]
              apply mem_of_mem_stripMarker
              rw [hm, hname]
              simp
            · left
              rw [heq, lookupVal_insertVal]
              simp [hname]
          · right
            exact ⟨l', List.mem_cons_of_mem _ hl', hk⟩
        · exact absurd h (by simp)
      · exact absurd h (by simp)

theorem parseLines_lookup_isSome (pf : String → Except String Float)
    (st : Status) (ls : List String) :
    ∀ (m : List (String × Float)) (sol : Solution),
      parseLines pf st m ls = .ok sol → ∀ k,
      (lookupVal m k).isSome = true → (lookupVal sol.values k).isSome = true := by
  induction ls with
  | nil =>
    intro m sol h k hk
    simp only [parseLines] at h
    cases h
    exact hk
  | cons l rest ih =>
    intro m sol h k hk
    simp only [parseLines] at h
    split at h
    · exact absurd h (by simp)
    · split at h
      · rename_i a name value b hm
        split at h
        · rename_i n hpf
          apply ih _ _ h k
          rw [lookupVal_insertVal]
          by_cases hname : name = k
          · simp [hname]
          · simpa [hname] using hk
        · exact absurd h (by simp)
      · exact absurd h (by simp)

theorem parseLines_goodLine_step (pf : String → Except String Float)
    (st : Status) (m : List (String × Float)) (l : String) (rest : List String)
    (h : goodLine pf l = true) :
    ∃ m', parseLines pf st m (l :: rest) = parseLines pf st m' rest := by
  cases hs : splitWhitespace l with
  | nil =>
    rw [goodLine, hs] at h
    simp [stripMarker] at h
  | cons t0 ts =>
    rw [goodLine, hs] at h
    rcases hm : stripMarker (t0 :: ts) with _ | ⟨a, _ | ⟨b, _ | ⟨c, _ | ⟨d, _ | e⟩⟩⟩⟩ <;>
      rw [hm] at h <;> try simp at h
    cases hpf : pf c with
    | ok n =>
      refine ⟨insertVal m b n, ?_⟩
      simp only [parseLines, hs, hm, hpf]
    | error e =>
      rw [hpf] at h
      simp [Except.isOk, Except.toBool] at h

theorem parseLines_badLine (pf : String → Except String Float) (st : Status)
    (m : List (String × Float)) (bad : String) (rest : List String)
    (t0 : String) (ts : List String) (hs : splitWhitespace bad = t0 :: ts)
    (hlen : (stripMarker (t0 :: ts)).length ≠ 4) :
    parseLines pf st m (bad :: rest) = .err "Incorrect solution format" := by
  rcases hm : stripMarker (t0 :: ts) with _ | ⟨a, _ | ⟨b, _ | ⟨c, _ | ⟨d, _ | e⟩⟩⟩⟩ <;>
    simp only [parseLines, hs, hm]
  rw [hm] at hlen
  simp at hlen

theorem parseLines_err_after_good_prefix (pf : String → Except String Float)
    (st : Status) (pre : List String) :
    ∀ m : List (String × Float),
      (∀ l ∈ pre, goodLine pf l = true) →
      ∀ (bad : String) (rest : List String) (t0 : String) (ts : List String),
        splitWhitespace bad = t0 :: ts →
        (stripMarker (t0 :: ts)).length ≠ 4 →
        parseLines pf st m (pre ++ bad :: rest) = .err "Incorrect solution format" := by
  induction pre with
  | nil =>
    intro m _ bad rest t0 ts hs hlen
    simpa using parseLines_badLine pf st m bad rest t0 ts hs hlen
  | cons l pre' ih =>
    intro m hgood bad rest t0 ts hs hlen
    obtain ⟨m', hm'⟩ := parseLines_goodLine_step pf st m l (pre' ++ bad :: rest)
      (hgood l (List.mem_cons_self l pre'))
    rw [List.cons_append, hm']
    exact ih m' (fun l' hl' => hgood l' (List.mem_cons_of_mem _ hl')) bad rest t0 ts hs hlen

/-! ## Claims -/

/-- C1: For every solution file, the Status of the returned Solution is
determined solely by the first whitespace-separated token of the first line,
mapped exactly as: "Optimal" to Optimal, "Infeasible" or "Integer" to
Infeasible, "Unbounded" to Unbounded, "Stopped" to SubOptimal, and any other
first token to NotSolved; no subsequent line of the file changes the status. -/
theorem c1_status_from_first_token (pf : String → Except String Float)
    (problem : Option (List String)) (l0 : String) (rest : List String)
    (tok : String) (ts : List String) (sol : Solution)
    (hsplit : splitWhitespace l0 = tok :: ts)
    (hok : readSpecificSolution pf problem (l0 :: rest) = .ok sol) :
    sol.status = statusOfToken tok
    ∧ statusOfToken "Optimal" = .Optimal
    ∧ statusOfToken "Infeasible" = .Infeasible
    ∧ statusOfToken "Integer" = .Infeasible
    ∧ statusOfToken "Unbounded" = .Unbounded
    ∧ statusOfToken "Stopped" = .SubOptimal
    ∧ (tok ∉ (["Optimal", "Infeasible", "Integer", "Unbounded", "Stopped"] : List String)
        → statusOfToken tok = .NotSolved) := by
  refine ⟨?_, rfl, rfl, rfl, rfl, rfl, ?_⟩
  · simp only [readSpecificSolution, hsplit] at hok
    exact parseLines_ok_status _ _ _ _ _ hok
  · intro hmem
    simp only [List.mem_cons, List.not_mem_nil, or_false, not_or] at hmem
    obtain ⟨h1, h2, h3, h4, h5⟩ := hmem
    simp [statusOfToken, h1, h2, h3, h4, h5]

/-- Witness for C1: a one-line file whose first token is "Optimal". -/
theorem c1_witness :
    splitWhitespace "Optimal" = ["Optimal"]
    ∧ readSpecificSolution (fun _ => Except.error "") none ["Optimal"]
        = .ok { status := .Optimal, values := [] }
    ∧ (({ status := Status.Optimal, values := [] } : Solution).status
          = statusOfToken "Optimal"
       ∧ statusOfToken "Optimal" = .Optimal
       ∧ statusOfToken "Infeasible" = .Infeasible
       ∧ statusOfToken "Integer" = .Infeasible
       ∧ statusOfToken "Unbounded" = .Unbounded
       ∧ statusOfToken "Stopped" = .SubOptimal
       ∧ ("Optimal" ∉ (["Optimal", "Infeasible", "Integer", "Unbounded", "Stopped"] : List String)
           → statusOfToken "Optimal" = .NotSolved)) :=
  ⟨by decide, rfl,
    c1_status_from_first_token (fun _ => Except.error "") none "Optimal" []
      "Optimal" [] { status := .Optimal, values := [] } (by decide) rfl⟩

/-- C2: on every successful parse with a problem supplied, the value mapping
contains every declared variable name, and a variable the output never
mentions keeps its seeded value 0.0; with no problem supplied the mapping only
contains variables some data line mentions. -/
theorem c2_seeded_defaults (pf : String → Except String Float)
    (vars : List String) (fileLines : List String) (sol sol' : Solution)
    (v : String)
    (h1 : readSpecificSolution pf (some vars) fileLines = .ok sol)
    (h2 : readSpecificSolution pf none fileLines = .ok sol') :
    (v ∈ vars → (lookupVal sol.values v).isSome = true)
    ∧ (v ∈ vars → (∀ l ∈ fileLines.tail, v ∉ splitWhitespace l)
        → lookupVal sol.values v = some 0.0)
    ∧ ((lookupVal sol'.values v).isSome = true
        → ∃ l ∈ fileLines.tail, v ∈ splitWhitespace l) := by
  cases fileLines with
  | nil => simp [readSpecificSolution] at h1
  | cons l0 rest =>
    cases hs : splitWhitespace l0 with
    | nil =>
      simp only [readSpecificSolution, hs] at h1
      exact absurd h1 (by simp)
    | cons tok ts =>
      simp only [readSpecificSolution, hs] at h1 h2
      simp only [List.tail_cons]
      refine ⟨?_, ?_, ?_⟩
      · intro hv
        refine parseLines_lookup_isSome _ _ _ _ _ h1 v ?_
        rw [lookupVal_seedVars vars v hv]
        rfl
      · intro hv hnot
        rcases parseLines_lookup _ _ _ _ _ h1 v with heq | ⟨l, hl, hk⟩
        · rw [heq, lookupVal_seedVars vars v hv]
        · exact absurd hk (hnot l hl)
      · intro hsome
        rcases parseLines_lookup _ _ _ _ _ h2 v with heq | ⟨l, hl, hk⟩
        · rw [heq] at hsome
          simp [lookupVal] at hsome
        · exact ⟨l, hl, hk⟩

/-- Witness for C2: problem {x}, file "Optimal" with no data lines. -/
theorem c2_witness :
    readSpecificSolution (fun _ => Except.error "") (some ["x"]) ["Optimal"]
      = .ok { status := .Optimal, values := [("x", 0.0)] }
    ∧ readSpecificSolution (fun _ => Except.error "") none ["Optimal"]
      = .ok { status := .Optimal, values := [] }
    ∧ (("x" ∈ (["x"] : List String)
        → (lookupVal ({ status := Status.Optimal, values := [("x", 0.0)] } : Solution).values "x").isSome = true)
      ∧ ("x" ∈ (["x"] : List String)
        → (∀ l ∈ (["Optimal"] : List String).tail, "x" ∉ splitWhitespace l)
        → lookupVal ({ status := Status.Optimal, values := [("x", 0.0)] } : Solution).values "x" = some 0.0)
      ∧ ((lookupVal ({ status := Status.Optimal, values := [] } : Solution).values "x").isSome = true
        → ∃ l ∈ (["Optimal"] : List String).tail, "x" ∈ splitWhitespace l)) :=
  ⟨rfl, rfl,
    c2_seeded_defaults (fun _ => Except.error "") ["x"] ["Optimal"] _ _ "x" rfl rfl⟩

/-- C3 counterexample: two data lines with wrong token counts ("a b c" and
"d e") both abort with the same fixed message "Incorrect solution format", so
the error cannot be naming the offending line; and a data line with zero
tokens does not produce a MalformedSolution error at all — it panics on the
`result_line[0]` indexing. -/
theorem c3_counterexample :
    readSpecificSolution (fun _ => Except.error "") none ["Optimal", "a b c"]
      = .err "Incorrect solution format"
    ∧ readSpecificSolution (fun _ => Except.error "") none ["Optimal", "d e"]
      = .err "Incorrect solution format"
    ∧ readSpecificSolution (fun _ => Except.error "") none ["Optimal", ""]
      = .panicked "index out of bounds" :=
  ⟨rfl, rfl, rfl⟩

/-- C3 (amended): for every data line with at least one whitespace-separated
token whose token count after optional marker removal differs from 4, the
parse fails immediately with the fixed error "Incorrect solution format"
(which does not name the offending line) and no Solution is returned,
regardless of how many prior data lines parsed successfully; a zero-token
data line instead panics. -/
theorem c3_wrong_token_count_aborts (pf : String → Except String Float)
    (problem : Option (List String)) (l0 : String) (tok : String)
    (ts : List String) (pre : List String) (bad : String) (rest : List String)
    (t0 : String) (bts : List String)
    (h0 : splitWhitespace l0 = tok :: ts)
    (hpre : ∀ l ∈ pre, goodLine pf l = true)
    (hbad : splitWhitespace bad = t0 :: bts)
    (hlen : (stripMarker (t0 :: bts)).length ≠ 4) :
    readSpecificSolution pf problem (l0 :: (pre ++ bad :: rest))
      = .err "Incorrect solution format" := by
  simp only [readSpecificSolution, h0]
  exact parseLines_err_after_good_prefix pf _ pre _ hpre bad rest t0 bts hbad hlen

/-- Witness for the amended C3: one good data line, then a 3-token line. -/
theorem c3_witness :
    splitWhitespace "Optimal" = ["Optimal"]
    ∧ (∀ l ∈ (["0 x 1 0"] : List String),
        goodLine (fun _ => Except.ok (0.0 : Float)) l = true)
    ∧ splitWhitespace "a b c" = ["a", "b", "c"]
    ∧ (stripMarker ["a", "b", "c"]).length ≠ 4
    ∧ readSpecificSolution (fun _ => Except.ok (0.0 : Float)) (some ["x"])
        ["Optimal", "0 x 1 0", "a b c"] = .err "Incorrect solution format" :=
  ⟨by decide, by decide, by decide, by decide,
    c3_wrong_token_count_aborts (fun _ => Except.ok (0.0 : Float)) (some ["x"])
      "Optimal" "Optimal" [] ["0 x 1 0"] "a b c" [] "a" ["b", "c"]
      (by decide) (by decide) (by decide) (by decide)⟩

/-- C4 (code-bug evidence): `read_specific_solution` is not total — on a file
whose second line is whitespace-only (zero tokens), the embedded code reaches
the `result_line[0]` indexing on an empty vector, a panic, instead of
returning a Solution or an error value. -/
theorem c4_panics_on_blank_data_line :
    readSpecificSolution (fun _ => Except.error "") none ["Optimal", " "]
      = .panicked "index out of bounds" := rfl

/-- C5 counterexample: starting from a configuration with max-seconds set to
30, applying the command-name update produces a configuration whose seconds
field is None — the previously set max-seconds value is dropped, not left as
in the receiver; likewise for the temp-solution-file update. -/
theorem c5_counterexample :
    ((CbcSolver.new "u").with_max_seconds 30).seconds = some 30
    ∧ (((CbcSolver.new "u").with_max_seconds 30).set_command_name "cbc2").seconds ≠ some 30
    ∧ (((CbcSolver.new "u").with_max_seconds 30).with_temp_solution_file "t.sol").seconds ≠ some 30 := by
  refine ⟨rfl, ?_, ?_⟩ <;> decide

/-- C5 (amended): with_max_seconds and with_nb_threads differ from the
receiver only in the targeted field; command_name and with_temp_solution_file
preserve the name and the respectively untouched string fields but reset both
threads and seconds to None, dropping previously set values. -/
theorem c5_field_updates (s : CbcSolver) (cn tf : String) (sec thr : Nat) :
    ((s.with_max_seconds sec).seconds = some sec
      ∧ (s.with_max_seconds sec).name = s.name
      ∧ (s.with_max_seconds sec).command_name = s.command_name
      ∧ (s.with_max_seconds sec).temp_solution_file = s.temp_solution_file
      ∧ (s.with_max_seconds sec).threads = s.threads)
    ∧ ((s.with_nb_threads thr).threads = some thr
      ∧ (s.with_nb_threads thr).name = s.name
      ∧ (s.with_nb_threads thr).command_name = s.command_name
      ∧ (s.with_nb_threads thr).temp_solution_file = s.temp_solution_file
      ∧ (s.with_nb_threads thr).seconds = s.seconds)
    ∧ ((s.set_command_name cn).command_name = cn
      ∧ (s.set_command_name cn).name = s.name
      ∧ (s.set_command_name cn).temp_solution_file = s.temp_solution_file
      ∧ (s.set_command_name cn).threads = none
      ∧ (s.set_command_name cn).seconds = none)
    ∧ ((s.with_temp_solution_file tf).temp_solution_file = tf
      ∧ (s.with_temp_solution_file tf).name = s.name
      ∧ (s.with_temp_solution_file tf).command_name = s.command_name
      ∧ (s.with_temp_solution_file tf).threads = none
      ∧ (s.with_temp_solution_file tf).seconds = none) :=
  ⟨⟨rfl, rfl, rfl, rfl, rfl⟩, ⟨rfl, rfl, rfl, rfl, rfl⟩,
   ⟨rfl, rfl, rfl, rfl, rfl⟩, ⟨rfl, rfl, rfl, rfl, rfl⟩⟩

/-- C6 counterexample: a file whose first line is empty makes the parser fail
with Err "Incorrect solution format" — it does not produce a Solution with
status NotSolved. -/
theorem c6_counterexample :
    readSpecificSolution (fun _ => Except.error "") none ["", "0 x1 3.5 0"]
      = .err "Incorrect solution format" := rfl

/-- C6 (amended): whenever the first line of the solution file yields no
whitespace-separated token (empty file, or empty/blank first line — and the
unreadable-first-line case, whose read error the source discards, leaving an
empty buffer), the parser fails with Err "Incorrect solution format"; it
never produces a NotSolved Solution for such a first line. -/
theorem c6_empty_first_line_errors (pf : String → Except String Float)
    (problem : Option (List String)) (fileLines : List String)
    (h : splitWhitespace (fileLines.headD "") = []) :
    readSpecificSolution pf problem fileLines = .err "Incorrect solution format" := by
  cases fileLines with
  | nil => rfl
  | cons l0 rest =>
    simp only [List.headD_cons] at h
    simp [readSpecificSolution, h]

/-- Witness for the amended C6: a file with an empty first line. -/
theorem c6_witness :
    splitWhitespace ((["", "0 x1 3.5 0"] : List String).headD "") = []
    ∧ readSpecificSolution (fun _ => Except.error "x") none ["", "0 x1 3.5 0"]
      = .err "Incorrect solution format" :=
  ⟨by decide, c6_empty_first_line_errors (fun _ => Except.error "x") none
    ["", "0 x1 3.5 0"] (by decide)⟩

/-- C7: run parses the solution file only on a successful exit. A failed
launch yields the error naming the configured engine identity (the `name`
field); a non-success exit yields the raw exit-status description and the
result does not depend on the solution file's contents (it is never parsed);
a successful exit delegates to the solution parser with the problem's
variables. -/
theorem c7_run_gatekeeping (solver : CbcSolver) (pf : String → Except String Float)
    (vars : List String) (path : String) (fileA fileB : List String)
    (descr : String) :
    run solver pf vars (.ok path) .launchFailed fileA
      = .err ("Error running the " ++ solver.name ++ " solver")
    ∧ run solver pf vars (.ok path) (.exited false descr) fileA = .err descr
    ∧ run solver pf vars (.ok path) (.exited false descr) fileA
      = run solver pf vars (.ok path) (.exited false descr) fileB
    ∧ run solver pf vars (.ok path) (.exited true descr) fileA
      = readSpecificSolution pf (some vars) fileA :=
  ⟨rfl, rfl, rfl, rfl⟩

/-- C8: for every configuration the assembled command line is exactly
engine, problem file, one flag/value pair per set tuning option (and no
arguments at all for an unset option), then the fixed trailing
"solve", "solution", output-file arguments. -/
theorem c8_invocation_shape (solver : CbcSolver) (path : String) :
    buildArgs solver path
      = solver.command_name :: path ::
        ((match solver.max_seconds with
          | some s => ["seconds", toString s]
          | none => []) ++
         (match solver.nb_threads with
          | some t => ["threads", toString t]
          | none => []) ++
         ["solve", "solution", solver.temp_solution_file]) := by
  rcases solver with ⟨n, c, f, th, se⟩
  cases th <;> cases se <;> rfl

/-- C9: a data line whose first token is the sparse marker "**" is parsed
exactly like the unmarked line of the remaining 4 tokens: the value token is
parsed as a float and inserted for the variable-name token (last write wins,
shown by the lookup after insert). -/
theorem c9_marker_line (pf : String → Except String Float) (st : Status)
    (m : List (String × Float)) (rest : List String) (l l' : String)
    (a name value b : String) (n : Float)
    (hl : splitWhitespace l = ["**", a, name, value, b])
    (hl' : splitWhitespace l' = [a, name, value, b])
    (ha : a ≠ "**") :
    parseLines pf st m (l :: rest) = parseLines pf st m (l' :: rest)
    ∧ (∀ x, pf value = .ok x →
        parseLines pf st m (l :: rest) = parseLines pf st (insertVal m name x) rest)
    ∧ (∀ e, pf value = .error e → parseLines pf st m (l :: rest) = .err e)
    ∧ lookupVal (insertVal m name n) name = some n := by
  have hstrip : stripMarker ["**", a, name, value, b] = [a, name, value, b] := by
    simp [stripMarker]
  have hstrip' : stripMarker [a, name, value, b] = [a, name, value, b] := by
    simp [stripMarker, ha]
  refine ⟨?_, ?_, ?_, ?_⟩
  · simp only [parseLines, hl, hl', hstrip, hstrip']
  · intro x hx
    simp only [parseLines, hl, hstrip, hx]
  · intro e he
    simp only [parseLines, hl, hstrip, he]
  · rw [lookupVal_insertVal]
    simp

/-- Witness for C9: the spec's example line with marker, "** 1 y2 -2.0 0.1",
versus the same line without the marker. -/
theorem c9_witness :
    splitWhitespace "** 1 y2 -2.0 0.1" = ["**", "1", "y2", "-2.0", "0.1"]
    ∧ splitWhitespace "1 y2 -2.0 0.1" = ["1", "y2", "-2.0", "0.1"]
    ∧ ("1" : String) ≠ "**"
    ∧ (parseLines (fun _ => Except.ok (-2.0 : Float)) .Optimal []
          ["** 1 y2 -2.0 0.1"]
        = parseLines (fun _ => Except.ok (-2.0 : Float)) .Optimal []
          ["1 y2 -2.0 0.1"]
      ∧ (∀ x : Float, (Except.ok (-2.0 : Float) : Except String Float) = Except.ok x →
          parseLines (fun _ => Except.ok (-2.0 : Float)) .Optimal []
            ["** 1 y2 -2.0 0.1"]
          = parseLines (fun _ => Except.ok (-2.0 : Float)) .Optimal
            (insertVal [] "y2" x) [])
      ∧ (∀ e : String, (Except.ok (-2.0 : Float) : Except String Float) = Except.error e →
          parseLines (fun _ => Except.ok (-2.0 : Float)) .Optimal []
            ["** 1 y2 -2.0 0.1"] = .err e)
      ∧ lookupVal (insertVal [] "y2" (3.5 : Float)) "y2" = some (3.5 : Float)) :=
  ⟨by decide, by decide, by decide,
    c9_marker_line (fun _ => Except.ok (-2.0 : Float)) .Optimal [] []
      "** 1 y2 -2.0 0.1" "1 y2 -2.0 0.1" "1" "y2" "-2.0" "0.1" (3.5 : Float)
      (by decide) (by decide) (by decide)⟩

/-- C10: starting from the default configuration, with_max_seconds 30 then
with_nb_threads 4 — or the two in the opposite order — yields a configuration
whose max-seconds getter returns 30 and whose thread-count getter returns 4
simultaneously. -/
theorem c10_wither_composition (uuid : String) :
    ((((CbcSolver.new uuid).with_max_seconds 30).with_nb_threads 4).max_seconds = some 30
     ∧ (((CbcSolver.new uuid).with_max_seconds 30).with_nb_threads 4).nb_threads = some 4)
    ∧ ((((CbcSolver.new uuid).with_nb_threads 4).with_max_seconds 30).max_seconds = some 30
     ∧ (((CbcSolver.new uuid).with_nb_threads 4).with_max_seconds 30).nb_threads = some 4) :=
  ⟨⟨rfl, rfl⟩, ⟨rfl, rfl⟩⟩
